import Mathlib

/-
Verification development for the pyBioPlot plotting helpers.
The definitions below are a shallow embedding of src/pyBioPlot.py:
dataframes become lists of rows (association lists from column names to
cell values), pandas row filters become List.filter, the color generator
of get_color_list becomes an explicitly indexed stream, and the
dictionary-based highlight entries become structures with optional
fields.  Numeric cells are modelled as rationals; NaN is an explicit
cell constructor.
-/

set_option autoImplicit false

namespace PyBioPlot

/-- A cell of a pandas dataframe: a number, a string (e.g. a target_id),
or a missing value (NaN). -/
inductive Val where
  | num (q : ℚ)
  | str (s : String)
  | na
  deriving DecidableEq, Repr

/-- Python truthiness of a missing (NaN) cell test. -/
def Val.isna : Val → Bool
  | .na => true
  | _ => false

/-- Embedding of the pandas comparison `cell <= q` as used in the boolean
masks `df[col] <= FDR`: true only on numeric cells that are at most `q`
(comparisons against NaN are false in pandas). -/
def Val.le (v : Val) (q : ℚ) : Bool :=
  match v with
  | .num x => decide (x ≤ q)
  | _ => false

/-- Embedding of the pandas mask `df[col] > 0`. -/
def Val.gtZero (v : Val) : Bool :=
  match v with
  | .num x => decide (0 < x)
  | _ => false

/-- Embedding of the pandas mask `df[col] < 0`. -/
def Val.ltZero (v : Val) : Bool :=
  match v with
  | .num x => decide (x < 0)
  | _ => false

/-- A dataframe row: an association list from column names to cells. -/
abbrev Row : Type := List (String × Val)

/-- A dataframe in "record" format: a list of rows, in table order. -/
abbrev DataFrame : Type := List Row

/-- Column access `row[col]`; a missing column is read as NaN (pandas
would raise, and every mask predicate below is false on NaN). -/
def rowGetD (r : Row) (c : String) : Val :=
  match List.lookup c r with
  | some v => v
  | none => .na

/-- Embedding of `df.dropna()`: keep the rows in which no cell is NaN. -/
def dropna (df : DataFrame) : DataFrame :=
  df.filter (fun r => r.all (fun p => !p.2.isna))

/-- Embedding of `df[(df.target_id.isin(target_id_list))]` from line 718
of pyBioPlot.py: the rows of `df` whose target_id cell belongs to the
given list, in the row order of `df`. -/
def targetSelect (df : DataFrame) (tids : List Val) : DataFrame :=
  df.filter (fun r => decide (rowGetD r "target_id" ∈ tids))

/-- Python truthiness of the optional float `FDR` (`if FDR:`):
`None` and `0` are falsy, any other value is truthy. -/
def truthy : Option ℚ → Bool
  | none => false
  | some q => decide (q ≠ 0)

/-- Embedding of lines 725-726 of pyBioPlot.py:
`if FDR: df2 = df2[(df2[FDR_col]<=FDR)]`.  The filter runs only when
`FDR` is truthy in Python, i.e. neither `None` nor `0`. -/
def applyFDR (FDR : Option ℚ) (col : String) (d : DataFrame) : DataFrame :=
  match FDR with
  | none => d
  | some f => if f = 0 then d else d.filter (fun r => Val.le (rowGetD r col) f)

/-- Embedding of lines 332-335 of density_plot: the dataframe whose `X`
column feeds the main density curve, after `dropna` and the optional
FDR thresholding guarded by `if FDR:`. -/
def densityMainDF (df : DataFrame) (FDR : Option ℚ) (col : String) : DataFrame :=
  applyFDR FDR col (dropna df)

/-- Significant positive series of volcano_plot (line 102):
`df[(df[Y]<=FDR) & (df[X]>0)]` on the NaN-dropped dataframe. -/
def volcanoSigPos (df : DataFrame) (X Y : String) (FDR : ℚ) : DataFrame :=
  (dropna df).filter (fun r => Val.le (rowGetD r Y) FDR && Val.gtZero (rowGetD r X))

/-- Significant negative series of volcano_plot (line 109):
`df[(df[Y]<=FDR) & (df[X]<0)]` on the NaN-dropped dataframe. -/
def volcanoSigNeg (df : DataFrame) (X Y : String) (FDR : ℚ) : DataFrame :=
  (dropna df).filter (fun r => Val.le (rowGetD r Y) FDR && Val.ltZero (rowGetD r X))

/-- Significant positive series of MA_plot (line 225):
`df[(df[FDR_col]<=FDR) & (df[Y]>0)]` on the NaN-dropped dataframe. -/
def maSigPos (df : DataFrame) (Y FDRcol : String) (FDR : ℚ) : DataFrame :=
  (dropna df).filter (fun r => Val.le (rowGetD r FDRcol) FDR && Val.gtZero (rowGetD r Y))

/-- Significant negative series of MA_plot (line 232):
`df[(df[FDR_col]<=FDR) & (df[Y]<0)]` on the NaN-dropped dataframe. -/
def maSigNeg (df : DataFrame) (Y FDRcol : String) (FDR : ℚ) : DataFrame :=
  (dropna df).filter (fun r => Val.le (rowGetD r FDRcol) FDR && Val.ltZero (rowGetD r Y))

/-- A matplotlib colormap: its resolution `cmap.N` and the sampling
function `cmap(index)`; colors are kept as opaque strings. -/
structure Cmap where
  N : ℕ
  apply : ℕ → String

/-- The step between sampled colormap indices in get_color_list
(line 595): `int(n_col_cmap/(n-1)) if n > 1 else n_col_cmap/2` with
`n_col_cmap = cmap.N-2`. -/
def colorStep (n : ℕ) (cm : Cmap) : ℕ :=
  if n > 1 then (cm.N - 2) / (n - 1) else (cm.N - 2) / 2

/-- The loop of lines 598-601 of get_color_list: starting from `index`,
append `cmap(index)` and advance by `step`, `m` times. -/
def colorTableAux (cm : Cmap) (step : ℕ) : ℕ → ℕ → List String
  | 0, _ => []
  | m + 1, index => cm.apply index :: colorTableAux cm step m (index + step)

/-- The list `cl` of `n` colors built by get_color_list before yielding,
starting at index 1 (`index = 1 # skip the first value`). -/
def colorTable (n : ℕ) (cm : Cmap) : List String :=
  colorTableAux cm (colorStep n cm) n 1

/-- The index update of the yielding loop of get_color_list (line 607):
`i = i+1 if i < n-1 else 0`. -/
def nextColorIdx (n i : ℕ) : ℕ :=
  if i < n - 1 then i + 1 else 0

/-- The `k`-th value yielded by the generator returned by
`get_color_list(n, colormap)`: the yield index starts at 0 and follows
`nextColorIdx` after every yield. -/
def colorYield (n : ℕ) (cm : Cmap) (k : ℕ) : String :=
  (colorTable n cm).getD (Nat.iterate (nextColorIdx n) k 0) ""

/-- A highlight_list entry: a Python dict whose recognised keys are
modelled as optional fields (absent key = `none`). -/
structure Entry where
  df : Option DataFrame := none
  target_id : Option (List Val) := none
  color : Option String := none
  label : Option String := none
  alpha : Option ℚ := none
  marker : Option String := none
  linewidth : Option ℚ := none
  linestyle : Option String := none
  deriving DecidableEq, Repr

/-- The per-plot `default_val` dict, restricted to the four style keys
that _parse_highlight_list reads from it. -/
structure DefaultVal where
  alpha : Option ℚ := none
  marker : Option String := none
  linewidth : Option ℚ := none
  linestyle : Option String := none
  deriving DecidableEq, Repr

/-- A cleaned series dict `h2` built by _parse_highlight_list
(lines 732-739). -/
structure Series where
  df : DataFrame
  label : String
  color : String
  alpha : ℚ
  marker : String
  linewidth : ℚ
  linestyle : String
  deriving DecidableEq, Repr

/-- The label of a cleaned series (line 734):
`"{}  n={}".format(h.get("label", "Series #"+str(i)), len(df2))`. -/
def seriesLabel (h : Entry) (i m : ℕ) : String :=
  (h.label.getD ("Series #" ++ toString i)) ++ "  n=" ++ toString m

/-- The message printed when an entry has neither a "df" nor a
"target_id" key (line 722). -/
def skipMsg (i : ℕ) : String :=
  "Target_id list of dataframe required for series #" ++ toString i ++
    ". Skipping to the next one"

/-- The cleaned dict `h2` of lines 732-739.  `cl.getD ci ""` is the
value of `next(colors)`, which Python evaluates eagerly as the default
argument of `h.get("color", next(colors))` whether or not the entry has
a color. -/
def mkSeries (dv : DefaultVal) (cl : List String) (ci i : ℕ) (h : Entry)
    (df2 : DataFrame) : Series :=
  { df := df2
    label := seriesLabel h i df2.length
    color := h.color.getD (cl.getD ci "")
    alpha := h.alpha.getD (dv.alpha.getD 1)
    marker := h.marker.getD (dv.marker.getD "o")
    linewidth := h.linewidth.getD (dv.linewidth.getD 0)
    linestyle := h.linestyle.getD (dv.linestyle.getD "-") }

/-- The loop of _parse_highlight_list (lines 714-741).  Arguments `i`
and `ci` are the enumeration index and the state of the color
generator; the function returns the cleaned series list together with
the list of printed messages.  Per iteration: choose the series
dataframe from "target_id" or "df" (skipping with a message when both
are absent), apply the optional FDR threshold, drop the series when
`len(df2) <= min_targets`, and otherwise emit the cleaned dict,
advancing the color generator. -/
def parseAux (df : DataFrame) (dv : DefaultVal) (FDR : Option ℚ) (FDRcol : String)
    (minT : ℕ) (n : ℕ) (cl : List String) :
    List Entry → ℕ → ℕ → List Series × List String
  | [], _, _ => ([], [])
  | h :: rest, i, ci =>
    match h.df, h.target_id with
    | none, some tids =>
      let df2 := applyFDR FDR FDRcol (targetSelect df tids)
      if df2.length ≤ minT then
        parseAux df dv FDR FDRcol minT n cl rest (i + 1) ci
      else
        let res := parseAux df dv FDR FDRcol minT n cl rest (i + 1) (nextColorIdx n ci)
        (mkSeries dv cl ci i h df2 :: res.1, res.2)
    | some hdf, _ =>
      let df2 := applyFDR FDR FDRcol (dropna hdf)
      if df2.length ≤ minT then
        parseAux df dv FDR FDRcol minT n cl rest (i + 1) ci
      else
        let res := parseAux df dv FDR FDRcol minT n cl rest (i + 1) (nextColorIdx n ci)
        (mkSeries dv cl ci i h df2 :: res.1, res.2)
    | none, none =>
      let res := parseAux df dv FDR FDRcol minT n cl rest (i + 1) ci
      (res.1, skipMsg i :: res.2)

/-- Embedding of `_parse_highlight_list(highlight_list, df, default_val,
highlight_palette, FDR, FDR_col, min_targets)` (lines 708-743): the
color generator is created with `n = len(highlight_list)` and the given
palette, and the loop starts at enumeration index 0 with a fresh
generator state. -/
def parseHighlightList (hl : List Entry) (df : DataFrame) (dv : DefaultVal)
    (cm : Cmap) (FDR : Option ℚ) (FDRcol : String) (minT : ℕ) :
    List Series × List String :=
  parseAux df dv FDR FDRcol minT hl.length (colorTable hl.length cm) hl 0 0

/-- Python dict assignment `kws[k] = v`, modelled on association lists
looked up from the front (the new binding shadows any older one). -/
def dictSet (k v : String) (kws : List (String × String)) : List (String × String) :=
  (k, v) :: kws

/-- The title rendered by `_plot_postprocessing(kws)` (lines 690-691):
`pl.title(kws["title"])` runs exactly when `"title" in kws`. -/
def postTitle (kws : List (String × String)) : Option String :=
  List.lookup "title" kws

/-- The kwargs dict at the end of volcano_plot (line 142):
`kwargs["title"] = "Volcano Plot  FDR={}".format(FDR)` just before
`_plot_postprocessing(kwargs)`.  `FDRstr` is the formatted FDR value. -/
def volcanoKwargs (FDRstr : String) (kws : List (String × String)) :
    List (String × String) :=
  dictSet "title" ("Volcano Plot  FDR=" ++ FDRstr) kws

/-- The kwargs dict at the end of MA_plot (line 263):
`kwargs["title"] = "MA Plot  FDR={}".format(FDR)` just before
`_plot_postprocessing(kwargs)`. -/
def maKwargs (FDRstr : String) (kws : List (String × String)) :
    List (String × String) :=
  dictSet "title" ("MA Plot  FDR=" ++ FDRstr) kws

/-
Heap-based embedding, used to state that the plotting functions do not
mutate their caller-visible inputs.  Mutable Python objects (dataframes,
highlight entry dicts, the highlight list, cleaned series dicts) live
in a heap addressed by natural-number references; every pandas filter
allocates a fresh object, exactly as `df2 = df[...]` binds a new frame.
-/

/-- A highlight entry dict as a heap object: same keys as `Entry`, but
the "df" value is a reference to a dataframe object. -/
structure EntryObj where
  df : Option ℕ := none
  target_id : Option (List Val) := none
  color : Option String := none
  label : Option String := none
  alpha : Option ℚ := none
  marker : Option String := none
  linewidth : Option ℚ := none
  linestyle : Option String := none
  deriving DecidableEq, Repr

/-- A cleaned series dict `h2` as a heap object: its "df" value is a
reference to the freshly built dataframe. -/
structure SeriesObj where
  df : ℕ
  label : String
  color : String
  alpha : ℚ
  marker : String
  linewidth : ℚ
  linestyle : String
  deriving DecidableEq, Repr

/-- A heap object: a dataframe, a highlight entry dict, the highlight
list (a list of entry references), or a cleaned series dict. -/
inductive Obj where
  | frame (d : DataFrame)
  | dict (e : EntryObj)
  | hlist (refs : List ℕ)
  | sdict (s : SeriesObj)
  deriving DecidableEq, Repr

/-- Association lookup on the heap contents. -/
def assocFind : List (ℕ × Obj) → ℕ → Option Obj
  | [], _ => none
  | p :: ps, r => if p.1 = r then some p.2 else assocFind ps r

/-- The heap: the next fresh reference and the allocated objects. -/
structure Heap where
  next : ℕ
  mem : List (ℕ × Obj)
  deriving DecidableEq, Repr

/-- Read a reference. -/
def Heap.lookup (h : Heap) (r : ℕ) : Option Obj :=
  assocFind h.mem r

/-- Allocate a fresh object and return its reference. -/
def Heap.alloc (h : Heap) (o : Obj) : Heap × ℕ :=
  (⟨h.next + 1, (h.next, o) :: h.mem⟩, h.next)

/-- A well-formed heap allocates only references below `next`. -/
def WF (h : Heap) : Prop :=
  ∀ p ∈ h.mem, p.1 < h.next

instance (h : Heap) : Decidable (WF h) :=
  List.decidableBAll _ h.mem

/-- Read a dataframe object (any other object reads as the empty
frame; pandas would raise a type error there). -/
def readFrame (h : Heap) (r : ℕ) : DataFrame :=
  match h.lookup r with
  | some (.frame d) => d
  | _ => []

/-- Read a highlight entry dict. -/
def readEntry (h : Heap) (r : ℕ) : EntryObj :=
  match h.lookup r with
  | some (.dict e) => e
  | _ => {}

/-- Read the highlight list object. -/
def readHlist (h : Heap) (r : ℕ) : List ℕ :=
  match h.lookup r with
  | some (.hlist l) => l
  | _ => []

/-- The per-entry series dataframe choice of lines 717-723: target
selection on the main dataframe, or `h["df"].dropna()`, or nothing when
the entry has neither key. -/
def entryFrame (h : Heap) (dfRef : ℕ) (e : EntryObj) : Option DataFrame :=
  match e.df, e.target_id with
  | none, some tids => some (targetSelect (readFrame h dfRef) tids)
  | some hr, _ => some (dropna (readFrame h hr))
  | none, none => none

/-- Heap version of the FDR thresholding of lines 725-726: when the
filter runs, `df2 = df2[...]` allocates a fresh frame; otherwise the
reference is unchanged.  Returns the heap, the reference of the (new)
frame and its value. -/
def applyFDRM (FDR : Option ℚ) (col : String) (h : Heap) (r0 : ℕ)
    (d0 : DataFrame) : Heap × ℕ × DataFrame :=
  match FDR with
  | none => (h, r0, d0)
  | some f =>
    if f = 0 then (h, r0, d0)
    else
      let d1 := d0.filter (fun r => Val.le (rowGetD r col) f)
      let p := h.alloc (.frame d1)
      (p.1, p.2, d1)

/-- The cleaned series dict `h2` of lines 732-739 in the heap model. -/
def mkSeriesObj (dv : DefaultVal) (cl : List String) (ci i : ℕ) (e : EntryObj)
    (r2 m : ℕ) : SeriesObj :=
  { df := r2
    label := (e.label.getD ("Series #" ++ toString i)) ++ "  n=" ++ toString m
    color := e.color.getD (cl.getD ci "")
    alpha := e.alpha.getD (dv.alpha.getD 1)
    marker := e.marker.getD (dv.marker.getD "o")
    linewidth := e.linewidth.getD (dv.linewidth.getD 0)
    linestyle := e.linestyle.getD (dv.linestyle.getD "-") }

/-- Heap version of the loop of _parse_highlight_list: every step only
reads the input objects and allocates the new frames (`df[...]`,
`.dropna()`, the FDR filter) and the cleaned series dicts.  Returns the
final heap and the references of the cleaned dicts, in order. -/
def parseAuxM (dv : DefaultVal) (FDR : Option ℚ) (FDRcol : String) (minT : ℕ)
    (n : ℕ) (cl : List String) (dfRef : ℕ) :
    List ℕ → ℕ → ℕ → Heap → Heap × List ℕ
  | [], _, _, h => (h, [])
  | er :: rest, i, ci, h =>
    match entryFrame h dfRef (readEntry h er) with
    | none => parseAuxM dv FDR FDRcol minT n cl dfRef rest (i + 1) ci h
    | some d0 =>
      let p1 := h.alloc (.frame d0)
      let q := applyFDRM FDR FDRcol p1.1 p1.2 d0
      if q.2.2.length ≤ minT then
        parseAuxM dv FDR FDRcol minT n cl dfRef rest (i + 1) ci q.1
      else
        let p3 := q.1.alloc (.sdict (mkSeriesObj dv cl ci i (readEntry h er) q.2.1 q.2.2.length))
        let res := parseAuxM dv FDR FDRcol minT n cl dfRef rest (i + 1) (nextColorIdx n ci) p3.1
        (res.1, p3.2 :: res.2)

/-- Heap version of `_parse_highlight_list`: reads the highlight list
object, builds the color table from its length, and runs the loop. -/
def parseM (hlRef dfRef : ℕ) (dv : DefaultVal) (cm : Cmap) (FDR : Option ℚ)
    (FDRcol : String) (minT : ℕ) (h : Heap) : Heap × List ℕ :=
  let ers := readHlist h hlRef
  parseAuxM dv FDR FDRcol minT ers.length (colorTable ers.length cm) dfRef ers 0 0 h

/-- The `default_val` styles of volcano_plot and MA_plot (lines 78-83
and 201-206): linewidth 0, marker "o", alpha 0.5. -/
def scatterDefaults : DefaultVal :=
  { alpha := some (1 / 2), marker := some "o", linewidth := some 0 }

/-- The `default_val` styles of density_plot (lines 317-323):
linewidth 2, linestyle "-", alpha 1 (and no marker). -/
def densityDefaults : DefaultVal :=
  { alpha := some 1, linewidth := some 2, linestyle := some "-" }

/-- Heap-level dataframe flow of volcano_plot (lines 92-123):
`df = df.dropna()` allocates the NaN-dropped frame, the two significant
masks allocate fresh frames, and `_parse_highlight_list` runs on the
NaN-dropped frame. -/
def volcanoM (dfRef hlRef : ℕ) (X Y : String) (FDR : ℚ) (cm : Cmap)
    (hFDR : Option ℚ) (minT : ℕ) (h : Heap) : Heap × List ℕ :=
  let d1 := dropna (readFrame h dfRef)
  let p1 := h.alloc (.frame d1)
  let p2 := p1.1.alloc (.frame (d1.filter (fun r => Val.le (rowGetD r Y) FDR && Val.gtZero (rowGetD r X))))
  let p3 := p2.1.alloc (.frame (d1.filter (fun r => Val.le (rowGetD r Y) FDR && Val.ltZero (rowGetD r X))))
  parseM hlRef p1.2 scatterDefaults cm hFDR Y minT p3.1

/-- Heap-level dataframe flow of MA_plot (lines 215-246). -/
def maPlotM (dfRef hlRef : ℕ) (Y FDRcol : String) (FDR : ℚ) (cm : Cmap)
    (hFDR : Option ℚ) (minT : ℕ) (h : Heap) : Heap × List ℕ :=
  let d1 := dropna (readFrame h dfRef)
  let p1 := h.alloc (.frame d1)
  let p2 := p1.1.alloc (.frame (d1.filter (fun r => Val.le (rowGetD r FDRcol) FDR && Val.gtZero (rowGetD r Y))))
  let p3 := p2.1.alloc (.frame (d1.filter (fun r => Val.le (rowGetD r FDRcol) FDR && Val.ltZero (rowGetD r Y))))
  parseM hlRef p1.2 scatterDefaults cm hFDR FDRcol minT p3.1

/-- Heap-level dataframe flow of density_plot (lines 332-355):
`df = df.dropna()` then the optional FDR filter, then the highlight
parsing on the resulting frame. -/
def densityM (dfRef hlRef : ℕ) (FDR : Option ℚ) (FDRcol : String) (cm : Cmap)
    (hFDR : Option ℚ) (minT : ℕ) (h : Heap) : Heap × List ℕ :=
  let d1 := dropna (readFrame h dfRef)
  let p1 := h.alloc (.frame d1)
  let q := applyFDRM FDR FDRcol p1.1 p1.2 d1
  parseM hlRef q.2.1 densityDefaults cm hFDR FDRcol minT q.1

/-- The two no-mutation guarantees of a heap transformer: every object
of the initial heap is untouched, and every returned reference is
fresh (allocated at or after the initial frontier). -/
def NoMutation (f : Heap → Heap × List ℕ) (h₀ : Heap) : Prop :=
  (∀ r o, h₀.lookup r = some o → (f h₀).1.lookup r = some o) ∧
    ∀ q ∈ (f h₀).2, h₀.next ≤ q

/-
Concrete fixtures used by the witness theorems below: a three-row
dataframe with a target_id, a p-value and an effect column, a few
highlight entries, a small colormap and a small heap.
-/

/-- A concrete colormap with the resolution of matplotlib's "brg"
palette (256 colors), with opaque color names. -/
def cmBrg : Cmap := ⟨256, fun i => "c" ++ toString i⟩

/-- Test row "a": p-value 1, effect 2. -/
def rowA : Row := [("target_id", Val.str "a"), ("pval", Val.num 1), ("x", Val.num 2)]

/-- Test row "b": p-value 5, effect -1. -/
def rowB : Row := [("target_id", Val.str "b"), ("pval", Val.num 5), ("x", Val.num (-1))]

/-- Test row "c": p-value 7, effect exactly 0. -/
def rowC : Row := [("target_id", Val.str "c"), ("pval", Val.num 7), ("x", Val.num 0)]

/-- A three-row test dataframe. -/
def df0 : DataFrame := [rowA, rowB, rowC]

/-- A two-row test dataframe, used as an entry-supplied "df" value. -/
def dfE : DataFrame := [rowA, rowB]

/-- A highlight entry selecting target "b". -/
def entB : Entry := { target_id := some [Val.str "b"] }

/-- A highlight entry with an entry-supplied dataframe. -/
def entD : Entry := { df := some dfE }

/-- A highlight entry with neither a "df" nor a "target_id" key. -/
def entNoKeys : Entry := { color := some "blue" }

/-- A highlight entry with per-series style overrides. -/
def entS : Entry := { target_id := some [Val.str "b"], alpha := some 3, linewidth := some 5 }

/-- A per-plot default style providing only a marker. -/
def dvS : DefaultVal := { marker := some "x" }

/-- The cleaned series produced for `entS` under `dvS`. -/
def sS : Series :=
  { df := [rowB], label := "Series #0  n=1", color := "c1", alpha := 3,
    marker := "x", linewidth := 5, linestyle := "-" }

/-- A well-formed test heap: the main dataframe at reference 0, the
highlight list at reference 1 and one entry dict at reference 2. -/
def heap0 : Heap :=
  ⟨3, [(0, .frame df0), (1, .hlist [2]), (2, .dict { target_id := some [Val.str "b"] })]⟩

/-
General lemmas about the embedding.
-/

lemma iter_nextColorIdx (n : ℕ) (hn : 1 ≤ n) :
    ∀ k, Nat.iterate (nextColorIdx n) k 0 = k % n := by
  intro k
  induction k with
  | zero => simp
  | succ k ih =>
    rw [Function.iterate_succ_apply', ih, nextColorIdx]
    rcases Nat.lt_or_ge (k % n) (n - 1) with h | h
    · rw [if_pos h, ← Nat.mod_add_mod, Nat.mod_eq_of_lt (show k % n + 1 < n by omega)]
    · have hk : k % n = n - 1 := by
        have := Nat.mod_lt k (show 0 < n by omega)
        omega
      rw [if_neg (by omega), ← Nat.mod_add_mod, hk]
      have h1 : n - 1 + 1 = n := by omega
      rw [h1, Nat.mod_self]

lemma colorTableAux_getD (cm : Cmap) (step : ℕ) :
    ∀ m index k, k < m →
      (colorTableAux cm step m index).getD k "" = cm.apply (index + k * step) := by
  intro m
  induction m with
  | zero => intro index k hk; omega
  | succ m ih =>
    intro index k hk
    cases k with
    | zero => simp [colorTableAux]
    | succ k =>
      have h1 := ih (index + step) k (by omega)
      simp only [colorTableAux, List.getD_cons_succ]
      rw [h1]
      congr 1
      ring

lemma parseAux_cons_target (df : DataFrame) (dv : DefaultVal) (FDR : Option ℚ)
    (col : String) (minT n : ℕ) (cl : List String) (h : Entry) (rest : List Entry)
    (i ci : ℕ) (tids : List Val) (h1 : h.df = none) (h2 : h.target_id = some tids) :
    parseAux df dv FDR col minT n cl (h :: rest) i ci =
      if (applyFDR FDR col (targetSelect df tids)).length ≤ minT then
        parseAux df dv FDR col minT n cl rest (i + 1) ci
      else
        (mkSeries dv cl ci i h (applyFDR FDR col (targetSelect df tids)) ::
            (parseAux df dv FDR col minT n cl rest (i + 1) (nextColorIdx n ci)).1,
          (parseAux df dv FDR col minT n cl rest (i + 1) (nextColorIdx n ci)).2) := by
  simp only [parseAux, h1, h2]

lemma parseAux_cons_df (df : DataFrame) (dv : DefaultVal) (FDR : Option ℚ)
    (col : String) (minT n : ℕ) (cl : List String) (h : Entry) (rest : List Entry)
    (i ci : ℕ) (hdf : DataFrame) (h1 : h.df = some hdf) :
    parseAux df dv FDR col minT n cl (h :: rest) i ci =
      if (applyFDR FDR col (dropna hdf)).length ≤ minT then
        parseAux df dv FDR col minT n cl rest (i + 1) ci
      else
        (mkSeries dv cl ci i h (applyFDR FDR col (dropna hdf)) ::
            (parseAux df dv FDR col minT n cl rest (i + 1) (nextColorIdx n ci)).1,
          (parseAux df dv FDR col minT n cl rest (i + 1) (nextColorIdx n ci)).2) := by
  simp only [parseAux, h1]

lemma parseAux_cons_skip (df : DataFrame) (dv : DefaultVal) (FDR : Option ℚ)
    (col : String) (minT n : ℕ) (cl : List String) (h : Entry) (rest : List Entry)
    (i ci : ℕ) (h1 : h.df = none) (h2 : h.target_id = none) :
    parseAux df dv FDR col minT n cl (h :: rest) i ci =
      ((parseAux df dv FDR col minT n cl rest (i + 1) ci).1,
        skipMsg i :: (parseAux df dv FDR col minT n cl rest (i + 1) ci).2) := by
  simp only [parseAux, h1, h2]

lemma parseAux_styles (df : DataFrame) (dv : DefaultVal) (FDR : Option ℚ)
    (col : String) (minT n : ℕ) (cl : List String) :
    ∀ (l : List Entry) (i ci : ℕ) (s : Series),
      s ∈ (parseAux df dv FDR col minT n cl l i ci).1 →
      ∃ h ∈ l, s.alpha = h.alpha.getD (dv.alpha.getD 1) ∧
        s.marker = h.marker.getD (dv.marker.getD "o") ∧
        s.linewidth = h.linewidth.getD (dv.linewidth.getD 0) ∧
        s.linestyle = h.linestyle.getD (dv.linestyle.getD "-") := by
  intro l
  induction l with
  | nil => intro i ci s hs; simp [parseAux] at hs
  | cons h rest ih =>
    intro i ci s hs
    rcases hh : h.df with _ | hdf
    · rcases ht : h.target_id with _ | tids
      · rw [parseAux_cons_skip df dv FDR col minT n cl h rest i ci hh ht] at hs
        obtain ⟨h', hmem, hp⟩ := ih (i + 1) ci s hs
        exact ⟨h', List.mem_cons_of_mem h hmem, hp⟩
      · rw [parseAux_cons_target df dv FDR col minT n cl h rest i ci tids hh ht] at hs
        by_cases hlen : (applyFDR FDR col (targetSelect df tids)).length ≤ minT
        · rw [if_pos hlen] at hs
          obtain ⟨h', hmem, hp⟩ := ih (i + 1) ci s hs
          exact ⟨h', List.mem_cons_of_mem h hmem, hp⟩
        · rw [if_neg hlen] at hs
          rcases List.mem_cons.mp hs with hs | hs
          · exact ⟨h, List.mem_cons_self h rest, by subst hs; exact ⟨rfl, rfl, rfl, rfl⟩⟩
          · obtain ⟨h', hmem, hp⟩ := ih (i + 1) (nextColorIdx n ci) s hs
            exact ⟨h', List.mem_cons_of_mem h hmem, hp⟩
    · rw [parseAux_cons_df df dv FDR col minT n cl h rest i ci hdf hh] at hs
      by_cases hlen : (applyFDR FDR col (dropna hdf)).length ≤ minT
      · rw [if_pos hlen] at hs
        obtain ⟨h', hmem, hp⟩ := ih (i + 1) ci s hs
        exact ⟨h', List.mem_cons_of_mem h hmem, hp⟩
      · rw [if_neg hlen] at hs
        rcases List.mem_cons.mp hs with hs | hs
        · exact ⟨h, List.mem_cons_self h rest, by subst hs; exact ⟨rfl, rfl, rfl, rfl⟩⟩
        · obtain ⟨h', hmem, hp⟩ := ih (i + 1) (nextColorIdx n ci) s hs
          exact ⟨h', List.mem_cons_of_mem h hmem, hp⟩

lemma alloc_next (h : Heap) (o : Obj) : (h.alloc o).1.next = h.next + 1 := rfl

lemma alloc_lookup_lt (h : Heap) (o : Obj) (r : ℕ) (hr : r < h.next) :
    (h.alloc o).1.lookup r = h.lookup r := by
  show assocFind ((h.next, o) :: h.mem) r = assocFind h.mem r
  rw [assocFind, if_neg (by omega)]

lemma applyFDRM_next (FDR : Option ℚ) (col : String) (h : Heap) (r0 : ℕ)
    (d0 : DataFrame) : h.next ≤ (applyFDRM FDR col h r0 d0).1.next := by
  rcases FDR with _ | f
  · exact le_refl _
  · rw [applyFDRM]
    by_cases hf : f = 0
    · rw [if_pos hf]
    · rw [if_neg hf]
      exact Nat.le_succ _

lemma applyFDRM_lookup (FDR : Option ℚ) (col : String) (h : Heap) (r0 : ℕ)
    (d0 : DataFrame) (r : ℕ) (hr : r < h.next) :
    (applyFDRM FDR col h r0 d0).1.lookup r = h.lookup r := by
  rcases FDR with _ | f
  · rfl
  · rw [applyFDRM]
    by_cases hf : f = 0
    · rw [if_pos hf]
    · rw [if_neg hf]
      exact alloc_lookup_lt h _ r hr

lemma parseAuxM_frame (dv : DefaultVal) (FDR : Option ℚ) (FDRcol : String)
    (minT n : ℕ) (cl : List String) (dfRef : ℕ) :
    ∀ (ers : List ℕ) (i ci : ℕ) (h : Heap),
      h.next ≤ (parseAuxM dv FDR FDRcol minT n cl dfRef ers i ci h).1.next ∧
        (∀ r, r < h.next →
          (parseAuxM dv FDR FDRcol minT n cl dfRef ers i ci h).1.lookup r =
            h.lookup r) ∧
        (∀ q ∈ (parseAuxM dv FDR FDRcol minT n cl dfRef ers i ci h).2, h.next ≤ q) := by
  intro ers
  induction ers with
  | nil => intro i ci h; exact ⟨le_refl _, fun r _ => rfl, by simp [parseAuxM]⟩
  | cons er rest ih =>
    intro i ci h
    rw [parseAuxM]
    cases hef : entryFrame h dfRef (readEntry h er) with
    | none => exact ih (i + 1) ci h
    | some d0 =>
      simp only
      set p1 := h.alloc (.frame d0) with hp1
      set q := applyFDRM FDR FDRcol p1.1 p1.2 d0 with hq
      have h2 : p1.1.next = h.next + 1 := rfl
      have hnq : h.next + 1 ≤ q.1.next := by
        have h1 := applyFDRM_next FDR FDRcol p1.1 p1.2 d0
        rw [← hq] at h1
        omega
      have hlq : ∀ r, r < h.next → q.1.lookup r = h.lookup r := by
        intro r hr
        have h3 := applyFDRM_lookup FDR FDRcol p1.1 p1.2 d0 r (by omega)
        rw [← hq] at h3
        have h4 : p1.1.lookup r = h.lookup r := alloc_lookup_lt h _ r hr
        exact h3.trans h4
      by_cases hlen : q.2.2.length ≤ minT
      · rw [if_pos hlen]
        obtain ⟨a1, a2, a3⟩ := ih (i + 1) ci q.1
        exact ⟨le_trans (by omega) a1,
          fun r hr => by rw [a2 r (by omega), hlq r hr],
          fun x hx => le_trans (by omega) (a3 x hx)⟩
      · rw [if_neg hlen]
        set p3 := q.1.alloc (.sdict (mkSeriesObj dv cl ci i (readEntry h er) q.2.1 q.2.2.length)) with hp3
        obtain ⟨a1, a2, a3⟩ := ih (i + 1) (nextColorIdx n ci) p3.1
        have hn3 : p3.1.next = q.1.next + 1 := rfl
        have hr3 : p3.2 = q.1.next := rfl
        refine ⟨le_trans (by omega) a1, fun r hr => ?_, fun x hx => ?_⟩
        · have h5 : p3.1.lookup r = q.1.lookup r := alloc_lookup_lt q.1 _ r (by omega)
          rw [a2 r (by omega), h5, hlq r hr]
        · rcases List.mem_cons.mp hx with hx | hx
          · omega
          · exact le_trans (by omega) (a3 x hx)

lemma assocFind_mem : ∀ (l : List (ℕ × Obj)) (r : ℕ) (o : Obj),
    assocFind l r = some o → (r, o) ∈ l := by
  intro l
  induction l with
  | nil => intro r o hro; simp [assocFind] at hro
  | cons p ps ih =>
    intro r o hro
    rw [assocFind] at hro
    by_cases hp : p.1 = r
    · rw [if_pos hp] at hro
      have : p = (r, o) := by
        obtain ⟨p1, p2⟩ := p
        simp only at hp
        simp only [Option.some_inj] at hro
        rw [hp, hro]
      rw [← this]
      exact List.mem_cons_self p ps
    · rw [if_neg hp] at hro
      exact List.mem_cons_of_mem p (ih r o hro)

lemma lookup_lt_next (h : Heap) (hw : WF h) (r : ℕ) (o : Obj)
    (hr : h.lookup r = some o) : r < h.next :=
  hw (r, o) (assocFind_mem h.mem r o hr)

lemma parseM_frame (hlRef dfRef : ℕ) (dv : DefaultVal) (cm : Cmap)
    (FDR : Option ℚ) (FDRcol : String) (minT : ℕ) (h : Heap) :
    h.next ≤ (parseM hlRef dfRef dv cm FDR FDRcol minT h).1.next ∧
      (∀ r, r < h.next →
        (parseM hlRef dfRef dv cm FDR FDRcol minT h).1.lookup r = h.lookup r) ∧
      (∀ q ∈ (parseM hlRef dfRef dv cm FDR FDRcol minT h).2, h.next ≤ q) :=
  parseAuxM_frame dv FDR FDRcol minT (readHlist h hlRef).length
    (colorTable (readHlist h hlRef).length cm) dfRef (readHlist h hlRef) 0 0 h

lemma volcanoM_frame (dfRef hlRef : ℕ) (X Y : String) (FDR : ℚ) (cm : Cmap)
    (hFDR : Option ℚ) (minT : ℕ) (h : Heap) :
    h.next ≤ (volcanoM dfRef hlRef X Y FDR cm hFDR minT h).1.next ∧
      (∀ r, r < h.next →
        (volcanoM dfRef hlRef X Y FDR cm hFDR minT h).1.lookup r = h.lookup r) ∧
      (∀ q ∈ (volcanoM dfRef hlRef X Y FDR cm hFDR minT h).2, h.next ≤ q) := by
  rw [volcanoM]
  set d1 := dropna (readFrame h dfRef) with hd1
  set p1 := h.alloc (.frame d1) with hp1
  set p2 := p1.1.alloc (.frame (d1.filter (fun r => Val.le (rowGetD r Y) FDR && Val.gtZero (rowGetD r X)))) with hp2
  set p3 := p2.1.alloc (.frame (d1.filter (fun r => Val.le (rowGetD r Y) FDR && Val.ltZero (rowGetD r X)))) with hp3
  have e1 : p1.1.next = h.next + 1 := rfl
  have e2 : p2.1.next = h.next + 2 := rfl
  have e3 : p3.1.next = h.next + 3 := rfl
  obtain ⟨a1, a2, a3⟩ := parseM_frame hlRef p1.2 scatterDefaults cm hFDR Y minT p3.1
  refine ⟨le_trans (by omega) a1, fun r hr => ?_, fun x hx => le_trans (by omega) (a3 x hx)⟩
  rw [a2 r (by omega)]
  have l3 : p3.1.lookup r = p2.1.lookup r := alloc_lookup_lt p2.1 _ r (by omega)
  have l2 : p2.1.lookup r = p1.1.lookup r := alloc_lookup_lt p1.1 _ r (by omega)
  have l1 : p1.1.lookup r = h.lookup r := alloc_lookup_lt h _ r hr
  rw [l3, l2, l1]

lemma maPlotM_frame (dfRef hlRef : ℕ) (Y FDRcol : String) (FDR : ℚ) (cm : Cmap)
    (hFDR : Option ℚ) (minT : ℕ) (h : Heap) :
    h.next ≤ (maPlotM dfRef hlRef Y FDRcol FDR cm hFDR minT h).1.next ∧
      (∀ r, r < h.next →
        (maPlotM dfRef hlRef Y FDRcol FDR cm hFDR minT h).1.lookup r = h.lookup r) ∧
      (∀ q ∈ (maPlotM dfRef hlRef Y FDRcol FDR cm hFDR minT h).2, h.next ≤ q) := by
  rw [maPlotM]
  set d1 := dropna (readFrame h dfRef) with hd1
  set p1 := h.alloc (.frame d1) with hp1
  set p2 := p1.1.alloc (.frame (d1.filter (fun r => Val.le (rowGetD r FDRcol) FDR && Val.gtZero (rowGetD r Y)))) with hp2
  set p3 := p2.1.alloc (.frame (d1.filter (fun r => Val.le (rowGetD r FDRcol) FDR && Val.ltZero (rowGetD r Y)))) with hp3
  have e1 : p1.1.next = h.next + 1 := rfl
  have e2 : p2.1.next = h.next + 2 := rfl
  have e3 : p3.1.next = h.next + 3 := rfl
  obtain ⟨a1, a2, a3⟩ := parseM_frame hlRef p1.2 scatterDefaults cm hFDR FDRcol minT p3.1
  refine ⟨le_trans (by omega) a1, fun r hr => ?_, fun x hx => le_trans (by omega) (a3 x hx)⟩
  rw [a2 r (by omega)]
  have l3 : p3.1.lookup r = p2.1.lookup r := alloc_lookup_lt p2.1 _ r (by omega)
  have l2 : p2.1.lookup r = p1.1.lookup r := alloc_lookup_lt p1.1 _ r (by omega)
  have l1 : p1.1.lookup r = h.lookup r := alloc_lookup_lt h _ r hr
  rw [l3, l2, l1]

lemma densityM_frame (dfRef hlRef : ℕ) (FDR : Option ℚ) (FDRcol : String)
    (cm : Cmap) (hFDR : Option ℚ) (minT : ℕ) (h : Heap) :
    h.next ≤ (densityM dfRef hlRef FDR FDRcol cm hFDR minT h).1.next ∧
      (∀ r, r < h.next →
        (densityM dfRef hlRef FDR FDRcol cm hFDR minT h).1.lookup r = h.lookup r) ∧
      (∀ q ∈ (densityM dfRef hlRef FDR FDRcol cm hFDR minT h).2, h.next ≤ q) := by
  rw [densityM]
  set d1 := dropna (readFrame h dfRef) with hd1
  set p1 := h.alloc (.frame d1) with hp1
  set q := applyFDRM FDR FDRcol p1.1 p1.2 d1 with hq
  have e1 : p1.1.next = h.next + 1 := rfl
  have e2 : h.next + 1 ≤ q.1.next := by
    have h1 := applyFDRM_next FDR FDRcol p1.1 p1.2 d1
    rw [← hq] at h1
    omega
  have hlq : ∀ r, r < h.next → q.1.lookup r = h.lookup r := by
    intro r hr
    have h3 := applyFDRM_lookup FDR FDRcol p1.1 p1.2 d1 r (by omega)
    rw [← hq] at h3
    exact h3.trans (alloc_lookup_lt h _ r hr)
  obtain ⟨a1, a2, a3⟩ := parseM_frame hlRef q.2.1 densityDefaults cm hFDR FDRcol minT q.1
  exact ⟨le_trans (by omega) a1,
    fun r hr => by rw [a2 r (by omega), hlq r hr],
    fun x hx => le_trans (by omega) (a3 x hx)⟩

/-
Claim theorems.
-/

/-- C1: for an entry with a "target_id" key and no "df" key, the series
table computed by _parse_highlight_list is exactly the subset of rows
of the input dataframe whose target_id cell belongs to the entry's
target_id list, keeping the dataframe's row order (a sublist), and
(with no FDR threshold) that table is the one carried by the emitted
series. -/
theorem highlight_target_selection (df : DataFrame) (tids : List Val)
    (dv : DefaultVal) (FDRcol : String) (minT n : ℕ) (cl : List String)
    (h : Entry) (rest : List Entry) (i ci : ℕ)
    (h1 : h.df = none) (h2 : h.target_id = some tids)
    (h3 : minT < (targetSelect df tids).length) :
    (targetSelect df tids).Sublist df ∧
      (∀ r, r ∈ targetSelect df tids ↔ r ∈ df ∧ rowGetD r "target_id" ∈ tids) ∧
      (parseAux df dv none FDRcol minT n cl (h :: rest) i ci).1 =
        mkSeries dv cl ci i h (targetSelect df tids) ::
          (parseAux df dv none FDRcol minT n cl rest (i + 1) (nextColorIdx n ci)).1 := by
  refine ⟨List.filter_sublist df, fun r => ?_, ?_⟩
  · rw [targetSelect, List.mem_filter, decide_eq_true_eq]
  · rw [parseAux_cons_target df dv none FDRcol minT n cl h rest i ci tids h1 h2]
    have : applyFDR none FDRcol (targetSelect df tids) = targetSelect df tids := rfl
    rw [this, if_neg (by omega)]

theorem highlight_target_selection_witness :
    entB.df = none ∧ entB.target_id = some [Val.str "b"] ∧
      0 < (targetSelect df0 [Val.str "b"]).length ∧
      ((targetSelect df0 [Val.str "b"]).Sublist df0 ∧
        (∀ r, r ∈ targetSelect df0 [Val.str "b"] ↔
          r ∈ df0 ∧ rowGetD r "target_id" ∈ [Val.str "b"]) ∧
        (parseAux df0 {} none "pval" 0 1 ["c1"] [entB] 0 0).1 =
          mkSeries {} ["c1"] 0 0 entB (targetSelect df0 [Val.str "b"]) ::
            (parseAux df0 {} none "pval" 0 1 ["c1"] [] 1 (nextColorIdx 1 0)).1) :=
  ⟨rfl, rfl, by decide,
    highlight_target_selection df0 [Val.str "b"] {} "pval" 0 1 ["c1"] entB [] 0 0
      rfl rfl (by decide)⟩

/-- C2 (counterexample): with the FDR value 0 given (not None), the
claim predicts that only rows with FDR_col value at most 0 are used,
but the code's `if FDR:` treats 0 as "no threshold": the entry's series
keeps rowB although its p-value 5 is not at most 0, and the main curve
of density_plot likewise keeps every row of df0. -/
theorem fdr_zero_not_thresholded :
    ((parseHighlightList [entB] df0 {} cmBrg (some 0) "pval" 0).1.map Series.df) =
        [[rowB]] ∧
      Val.le (rowGetD rowB "pval") 0 = false ∧
      densityMainDF df0 (some 0) "pval" = df0 ∧
      (∀ r ∈ df0, Val.le (rowGetD r "pval") 0 = false) :=
  ⟨by decide, by decide, by decide, by decide⟩

/-- C2 (amended): when a nonzero FDR value is given, the rows used (by
the highlight entries and by the main curve of density_plot) are
exactly those whose FDR_col value is at most that FDR; when FDR is None
or 0, no FDR restriction is applied. -/
theorem fdr_threshold_semantics (f : ℚ) (hf : f ≠ 0) (col : String) (d : DataFrame)
    (dv : DefaultVal) (minT n : ℕ) (cl : List String) (h : Entry)
    (rest : List Entry) (i ci : ℕ) (hdf : DataFrame) (h1 : h.df = some hdf)
    (h2 : minT < (applyFDR (some f) col (dropna hdf)).length) :
    (∀ r, r ∈ applyFDR (some f) col d ↔ r ∈ d ∧ Val.le (rowGetD r col) f = true) ∧
      applyFDR none col d = d ∧
      applyFDR (some 0) col d = d ∧
      (∀ r, r ∈ densityMainDF d (some f) col ↔
        r ∈ dropna d ∧ Val.le (rowGetD r col) f = true) ∧
      densityMainDF d none col = dropna d ∧
      densityMainDF d (some 0) col = dropna d ∧
      (parseAux d dv (some f) col minT n cl (h :: rest) i ci).1 =
        mkSeries dv cl ci i h (applyFDR (some f) col (dropna hdf)) ::
          (parseAux d dv (some f) col minT n cl rest (i + 1) (nextColorIdx n ci)).1 := by
  have hmem : ∀ e : DataFrame, ∀ r, r ∈ applyFDR (some f) col e ↔
      r ∈ e ∧ Val.le (rowGetD r col) f = true := by
    intro e r
    rw [applyFDR, if_neg hf, List.mem_filter]
  refine ⟨hmem d, rfl, by rw [applyFDR, if_pos rfl], hmem (dropna d), rfl,
    by rw [densityMainDF, applyFDR, if_pos rfl], ?_⟩
  rw [parseAux_cons_df d dv (some f) col minT n cl h rest i ci hdf h1,
    if_neg (by omega)]

theorem fdr_threshold_semantics_witness :
    (2 : ℚ) ≠ 0 ∧ (entD.df = some dfE) ∧
      0 < (applyFDR (some 2) "pval" (dropna dfE)).length ∧
      ((∀ r, r ∈ applyFDR (some 2) "pval" df0 ↔
          r ∈ df0 ∧ Val.le (rowGetD r "pval") 2 = true) ∧
        applyFDR none "pval" df0 = df0 ∧
        applyFDR (some 0) "pval" df0 = df0 ∧
        (∀ r, r ∈ densityMainDF df0 (some 2) "pval" ↔
          r ∈ dropna df0 ∧ Val.le (rowGetD r "pval") 2 = true) ∧
        densityMainDF df0 none "pval" = dropna df0 ∧
        densityMainDF df0 (some 0) "pval" = dropna df0 ∧
        (parseAux df0 {} (some 2) "pval" 0 1 ["c1"] [entD] 0 0).1 =
          mkSeries {} ["c1"] 0 0 entD (applyFDR (some 2) "pval" (dropna dfE)) ::
            (parseAux df0 {} (some 2) "pval" 0 1 ["c1"] [] 1 (nextColorIdx 1 0)).1) :=
  ⟨by decide, rfl, by decide,
    fdr_threshold_semantics 2 (by decide) "pval" df0 {} 0 1 ["c1"] entD [] 0 0 dfE
      rfl (by decide)⟩

/-- C3 (counterexample): with min_targets = 1 and a series of exactly 1
row — not below the cutoff — the claim predicts the series is kept, but
the code's `len(df2) <= min_targets` drops it: the output is empty. -/
theorem min_targets_equality_dropped :
    (targetSelect df0 [Val.str "b"]).length = 1 ∧
      parseHighlightList [entB] df0 {} cmBrg none "pval" 1 = ([], []) :=
  ⟨by decide, by decide⟩

/-- C3 (amended): a series appears in _parse_highlight_list's output if
and only if its row count, after target selection and the optional FDR
filtering, is strictly greater than min_targets; a series whose count
is less than or equal to min_targets (including exact equality) is
dropped.  Stated for both the "target_id" and the "df" entry forms. -/
theorem min_targets_strict_cutoff (df : DataFrame) (dv : DefaultVal)
    (FDR : Option ℚ) (col : String) (minT n : ℕ) (cl : List String)
    (h : Entry) (rest : List Entry) (i ci : ℕ) (tids : List Val) (hdf : DataFrame) :
    (h.df = none → h.target_id = some tids →
      (applyFDR FDR col (targetSelect df tids)).length ≤ minT →
      parseAux df dv FDR col minT n cl (h :: rest) i ci =
        parseAux df dv FDR col minT n cl rest (i + 1) ci) ∧
    (h.df = none → h.target_id = some tids →
      minT < (applyFDR FDR col (targetSelect df tids)).length →
      (parseAux df dv FDR col minT n cl (h :: rest) i ci).1 =
        mkSeries dv cl ci i h (applyFDR FDR col (targetSelect df tids)) ::
          (parseAux df dv FDR col minT n cl rest (i + 1) (nextColorIdx n ci)).1) ∧
    (h.df = some hdf →
      (applyFDR FDR col (dropna hdf)).length ≤ minT →
      parseAux df dv FDR col minT n cl (h :: rest) i ci =
        parseAux df dv FDR col minT n cl rest (i + 1) ci) ∧
    (h.df = some hdf →
      minT < (applyFDR FDR col (dropna hdf)).length →
      (parseAux df dv FDR col minT n cl (h :: rest) i ci).1 =
        mkSeries dv cl ci i h (applyFDR FDR col (dropna hdf)) ::
          (parseAux df dv FDR col minT n cl rest (i + 1) (nextColorIdx n ci)).1) := by
  refine ⟨fun h1 h2 hle => ?_, fun h1 h2 hgt => ?_, fun h1 hle => ?_, fun h1 hgt => ?_⟩
  · rw [parseAux_cons_target df dv FDR col minT n cl h rest i ci tids h1 h2, if_pos hle]
  · rw [parseAux_cons_target df dv FDR col minT n cl h rest i ci tids h1 h2,
      if_neg (by omega)]
  · rw [parseAux_cons_df df dv FDR col minT n cl h rest i ci hdf h1, if_pos hle]
  · rw [parseAux_cons_df df dv FDR col minT n cl h rest i ci hdf h1, if_neg (by omega)]

theorem min_targets_strict_cutoff_witness :
    entB.df = none ∧ entB.target_id = some [Val.str "b"] ∧
      (applyFDR none "pval" (targetSelect df0 [Val.str "b"])).length ≤ 1 ∧
      0 < (applyFDR none "pval" (targetSelect df0 [Val.str "b"])).length ∧
      parseAux df0 {} none "pval" 1 1 ["c1"] [entB] 0 0 =
        parseAux df0 {} none "pval" 1 1 ["c1"] [] 1 0 ∧
      (parseAux df0 {} none "pval" 0 1 ["c1"] [entB] 0 0).1 =
        mkSeries {} ["c1"] 0 0 entB (applyFDR none "pval" (targetSelect df0 [Val.str "b"])) ::
          (parseAux df0 {} none "pval" 0 1 ["c1"] [] 1 (nextColorIdx 1 0)).1 :=
  ⟨rfl, rfl, by decide, by decide,
    (min_targets_strict_cutoff df0 {} none "pval" 1 1 ["c1"] entB [] 0 0
        [Val.str "b"] []).1 rfl rfl (by decide),
    (min_targets_strict_cutoff df0 {} none "pval" 0 1 ["c1"] entB [] 0 0
        [Val.str "b"] []).2.1 rfl rfl (by decide)⟩

/-- C4: every series retained by _parse_highlight_list takes each style
field among alpha, marker, linewidth and linestyle from its entry when
the entry provides the key, otherwise from default_val when it provides
the key, otherwise from the fixed fallbacks 1, "o", 0 and "-" (the
`h.get(key, default_val.get(key, fallback))` chain). -/
theorem style_override_merge (hl : List Entry) (df : DataFrame) (dv : DefaultVal)
    (cm : Cmap) (FDR : Option ℚ) (col : String) (minT : ℕ) (s : Series)
    (hs : s ∈ (parseHighlightList hl df dv cm FDR col minT).1) :
    ∃ h ∈ hl, s.alpha = h.alpha.getD (dv.alpha.getD 1) ∧
      s.marker = h.marker.getD (dv.marker.getD "o") ∧
      s.linewidth = h.linewidth.getD (dv.linewidth.getD 0) ∧
      s.linestyle = h.linestyle.getD (dv.linestyle.getD "-") :=
  parseAux_styles df dv FDR col minT hl.length (colorTable hl.length cm) hl 0 0 s hs

theorem style_override_merge_witness :
    sS ∈ (parseHighlightList [entS] df0 dvS cmBrg none "pval" 0).1 ∧
      ∃ h ∈ [entS], sS.alpha = h.alpha.getD (dvS.alpha.getD 1) ∧
        sS.marker = h.marker.getD (dvS.marker.getD "o") ∧
        sS.linewidth = h.linewidth.getD (dvS.linewidth.getD 0) ∧
        sS.linestyle = h.linestyle.getD (dvS.linestyle.getD "-") :=
  ⟨by decide,
    style_override_merge [entS] df0 dvS cmBrg none "pval" 0 sS (by decide)⟩

/-- C5: after NaN-dropping, volcano_plot's 'Significant positive'
series is exactly the rows with df[Y] at most FDR and df[X] above 0,
its 'Significant negative' series exactly those with df[X] below 0, and
MA_plot behaves the same with df[FDR_col] and the sign of df[Y]; a row
whose effect value is exactly 0 belongs to neither significant series. -/
theorem significant_series_partition (df : DataFrame) (X Y Yma FDRcol : String)
    (FDR : ℚ) (r : Row) :
    (r ∈ volcanoSigPos df X Y FDR ↔
        r ∈ dropna df ∧ Val.le (rowGetD r Y) FDR = true ∧
          Val.gtZero (rowGetD r X) = true) ∧
      (r ∈ volcanoSigNeg df X Y FDR ↔
        r ∈ dropna df ∧ Val.le (rowGetD r Y) FDR = true ∧
          Val.ltZero (rowGetD r X) = true) ∧
      (r ∈ maSigPos df Yma FDRcol FDR ↔
        r ∈ dropna df ∧ Val.le (rowGetD r FDRcol) FDR = true ∧
          Val.gtZero (rowGetD r Yma) = true) ∧
      (r ∈ maSigNeg df Yma FDRcol FDR ↔
        r ∈ dropna df ∧ Val.le (rowGetD r FDRcol) FDR = true ∧
          Val.ltZero (rowGetD r Yma) = true) ∧
      (rowGetD r X = Val.num 0 →
        r ∉ volcanoSigPos df X Y FDR ∧ r ∉ volcanoSigNeg df X Y FDR) ∧
      (rowGetD r Yma = Val.num 0 →
        r ∉ maSigPos df Yma FDRcol FDR ∧ r ∉ maSigNeg df Yma FDRcol FDR) := by
  have hmem : ∀ (p q : Row → Bool),
      r ∈ (dropna df).filter (fun x => p x && q x) ↔
        r ∈ dropna df ∧ p r = true ∧ q r = true := by
    intro p q
    rw [List.mem_filter, Bool.and_eq_true]
  refine ⟨hmem _ _, hmem _ _, hmem _ _, hmem _ _,
    fun h0 => ⟨?_, ?_⟩, fun h0 => ⟨?_, ?_⟩⟩
  · intro hr
    have := ((hmem _ _).mp hr).2.2
    rw [h0] at this
    simp [Val.gtZero] at this
  · intro hr
    have := ((hmem _ _).mp hr).2.2
    rw [h0] at this
    simp [Val.ltZero] at this
  · intro hr
    have := ((hmem _ _).mp hr).2.2
    rw [h0] at this
    simp [Val.gtZero] at this
  · intro hr
    have := ((hmem _ _).mp hr).2.2
    rw [h0] at this
    simp [Val.ltZero] at this

theorem significant_series_partition_witness :
    rowGetD rowC "x" = Val.num 0 ∧ Val.le (rowGetD rowC "pval") 9 = true ∧
      ((rowC ∈ volcanoSigPos df0 "x" "pval" 9 ↔
          rowC ∈ dropna df0 ∧ Val.le (rowGetD rowC "pval") 9 = true ∧
            Val.gtZero (rowGetD rowC "x") = true) ∧
        (rowC ∈ volcanoSigNeg df0 "x" "pval" 9 ↔
          rowC ∈ dropna df0 ∧ Val.le (rowGetD rowC "pval") 9 = true ∧
            Val.ltZero (rowGetD rowC "x") = true) ∧
        (rowC ∈ maSigPos df0 "x" "pval" 9 ↔
          rowC ∈ dropna df0 ∧ Val.le (rowGetD rowC "pval") 9 = true ∧
            Val.gtZero (rowGetD rowC "x") = true) ∧
        (rowC ∈ maSigNeg df0 "x" "pval" 9 ↔
          rowC ∈ dropna df0 ∧ Val.le (rowGetD rowC "pval") 9 = true ∧
            Val.ltZero (rowGetD rowC "x") = true) ∧
        (rowGetD rowC "x" = Val.num 0 →
          rowC ∉ volcanoSigPos df0 "x" "pval" 9 ∧
            rowC ∉ volcanoSigNeg df0 "x" "pval" 9) ∧
        (rowGetD rowC "x" = Val.num 0 →
          rowC ∉ maSigPos df0 "x" "pval" 9 ∧ rowC ∉ maSigNeg df0 "x" "pval" 9)) :=
  ⟨by decide, by decide,
    significant_series_partition df0 "x" "pval" "x" "pval" 9 rowC⟩

/-- C6: on a well-formed heap, none of _parse_highlight_list,
volcano_plot, MA_plot or density_plot mutates a caller-visible object:
every reference present in the initial heap still dereferences to the
same object afterwards (the input dataframe, the highlight list, its
entry dicts and their dataframes are unchanged), and every series dict
returned is freshly allocated. -/
theorem no_caller_input_mutation (h₀ : Heap) (hw : WF h₀)
    (dfRef hlRef : ℕ) (dv : DefaultVal) (cm : Cmap) (FDR hFDR : Option ℚ)
    (X Y Yma FDRcol : String) (fdr : ℚ) (minT : ℕ) :
    NoMutation (parseM hlRef dfRef dv cm hFDR FDRcol minT) h₀ ∧
      NoMutation (volcanoM dfRef hlRef X Y fdr cm hFDR minT) h₀ ∧
      NoMutation (maPlotM dfRef hlRef Yma FDRcol fdr cm hFDR minT) h₀ ∧
      NoMutation (densityM dfRef hlRef FDR FDRcol cm hFDR minT) h₀ := by
  refine ⟨⟨fun r o hro => ?_, (parseM_frame hlRef dfRef dv cm hFDR FDRcol minT h₀).2.2⟩,
    ⟨fun r o hro => ?_, (volcanoM_frame dfRef hlRef X Y fdr cm hFDR minT h₀).2.2⟩,
    ⟨fun r o hro => ?_, (maPlotM_frame dfRef hlRef Yma FDRcol fdr cm hFDR minT h₀).2.2⟩,
    ⟨fun r o hro => ?_, (densityM_frame dfRef hlRef FDR FDRcol cm hFDR minT h₀).2.2⟩⟩
  · rw [(parseM_frame hlRef dfRef dv cm hFDR FDRcol minT h₀).2.1 r
      (lookup_lt_next h₀ hw r o hro)]
    exact hro
  · rw [(volcanoM_frame dfRef hlRef X Y fdr cm hFDR minT h₀).2.1 r
      (lookup_lt_next h₀ hw r o hro)]
    exact hro
  · rw [(maPlotM_frame dfRef hlRef Yma FDRcol fdr cm hFDR minT h₀).2.1 r
      (lookup_lt_next h₀ hw r o hro)]
    exact hro
  · rw [(densityM_frame dfRef hlRef FDR FDRcol cm hFDR minT h₀).2.1 r
      (lookup_lt_next h₀ hw r o hro)]
    exact hro

theorem no_caller_input_mutation_witness :
    WF heap0 ∧
      (NoMutation (parseM 1 0 {} cmBrg none "pval" 0) heap0 ∧
        NoMutation (volcanoM 0 1 "x" "pval" 2 cmBrg none 0) heap0 ∧
        NoMutation (maPlotM 0 1 "x" "pval" 2 cmBrg none 0) heap0 ∧
        NoMutation (densityM 0 1 none "pval" cmBrg none 0) heap0) :=
  ⟨by decide,
    no_caller_input_mutation heap0 (by decide) 0 1 {} cmBrg none none
      "x" "pval" "x" "pval" 2 0⟩

/-- C7: _parse_highlight_list is deterministic: equal arguments give
identical output (same row sets, labels, colors and styles), and the
color of a retained entry that lacks a "color" key is drawn, at the
generator's current position, from the palette table built by
get_color_list with n = len(highlight_list) and the given colormap —
no randomness is involved. -/
theorem parse_deterministic (hl hl' : List Entry) (df df' : DataFrame)
    (dv dv' : DefaultVal) (cm : Cmap) (FDR FDR' : Option ℚ) (col col' : String)
    (minT minT' : ℕ)
    (e1 : hl = hl') (e2 : df = df') (e3 : dv = dv') (e4 : FDR = FDR')
    (e5 : col = col') (e6 : minT = minT') :
    parseHighlightList hl df dv cm FDR col minT =
        parseHighlightList hl' df' dv' cm FDR' col' minT' ∧
      (∀ (h : Entry) (rest : List Entry) (i ci : ℕ) (tids : List Val),
        h.df = none → h.target_id = some tids → h.color = none →
        minT < (applyFDR FDR col (targetSelect df tids)).length →
        ((parseAux df dv FDR col minT hl.length (colorTable hl.length cm)
              (h :: rest) i ci).1.head?.map Series.color) =
          some ((colorTable hl.length cm).getD ci "")) := by
  subst e1 e2 e3 e4 e5 e6
  refine ⟨rfl, fun h rest i ci tids h1 h2 h3 h4 => ?_⟩
  rw [parseAux_cons_target df dv FDR col minT hl.length (colorTable hl.length cm)
      h rest i ci tids h1 h2, if_neg (by omega)]
  simp [mkSeries, h3]

theorem parse_deterministic_witness :
    ([entB] = [entB]) ∧ (df0 = df0) ∧
      (parseHighlightList [entB] df0 {} cmBrg none "pval" 0 =
          parseHighlightList [entB] df0 {} cmBrg none "pval" 0 ∧
        (∀ (h : Entry) (rest : List Entry) (i ci : ℕ) (tids : List Val),
          h.df = none → h.target_id = some tids → h.color = none →
          0 < (applyFDR none "pval" (targetSelect df0 tids)).length →
          ((parseAux df0 {} none "pval" 0 [entB].length
                (colorTable [entB].length cmBrg) (h :: rest) i ci).1.head?.map
              Series.color) =
            some ((colorTable [entB].length cmBrg).getD ci ""))) :=
  ⟨rfl, rfl,
    parse_deterministic [entB] [entB] df0 df0 {} {} cmBrg none none "pval" "pval" 0 0
      rfl rfl rfl rfl rfl rfl⟩

/-- C8: an entry with neither a "df" nor a "target_id" key does not
make _parse_highlight_list raise: the loop records the skip message for
that index, contributes no series for the entry, and processes the rest
of the list exactly as before (same color-generator state, next index). -/
theorem skip_entry_without_keys (df : DataFrame) (dv : DefaultVal) (FDR : Option ℚ)
    (col : String) (minT n : ℕ) (cl : List String) (h : Entry) (rest : List Entry)
    (i ci : ℕ) (h1 : h.df = none) (h2 : h.target_id = none) :
    parseAux df dv FDR col minT n cl (h :: rest) i ci =
      ((parseAux df dv FDR col minT n cl rest (i + 1) ci).1,
        skipMsg i :: (parseAux df dv FDR col minT n cl rest (i + 1) ci).2) :=
  parseAux_cons_skip df dv FDR col minT n cl h rest i ci h1 h2

theorem skip_entry_without_keys_witness :
    entNoKeys.df = none ∧ entNoKeys.target_id = none ∧
      parseAux df0 {} none "pval" 0 2 ["c1", "c255"] [entNoKeys, entB] 0 0 =
        ((parseAux df0 {} none "pval" 0 2 ["c1", "c255"] [entB] 1 0).1,
          skipMsg 0 :: (parseAux df0 {} none "pval" 0 2 ["c1", "c255"] [entB] 1 0).2) :=
  ⟨rfl, rfl,
    skip_entry_without_keys df0 {} none "pval" 0 2 ["c1", "c255"] entNoKeys [entB] 0 0
      rfl rfl⟩

/-- C9: for n at least 2, the generator of get_color_list(n, colormap)
is periodic with period n: its first n yields sample the colormap at
the evenly stepped indices 1 + k*step, and every (k+n)-th yield equals
the k-th, cycling from the start forever. -/
theorem get_color_list_periodic (n : ℕ) (cm : Cmap) (hn : 2 ≤ n) :
    (∀ k, k < n → colorYield n cm k = cm.apply (1 + k * colorStep n cm)) ∧
    (∀ k, colorYield n cm (k + n) = colorYield n cm k) := by
  constructor
  · intro k hk
    unfold colorYield
    rw [iter_nextColorIdx n (by omega) k, Nat.mod_eq_of_lt hk]
    exact colorTableAux_getD cm _ n 1 k hk
  · intro k
    unfold colorYield
    rw [iter_nextColorIdx n (by omega), iter_nextColorIdx n (by omega),
      Nat.add_mod_right]

theorem get_color_list_periodic_witness :
    2 ≤ 3 ∧
      ((∀ k, k < 3 → colorYield 3 cmBrg k = cmBrg.apply (1 + k * colorStep 3 cmBrg)) ∧
        (∀ k, colorYield 3 cmBrg (k + 3) = colorYield 3 cmBrg k)) :=
  ⟨by decide, get_color_list_periodic 3 cmBrg (by decide)⟩

/-- C10: volcano_plot and MA_plot always render the fixed titles
"Volcano Plot  FDR={FDR}" and "MA Plot  FDR={FDR}": the assignment to
kwargs["title"] happens right before _plot_postprocessing reads it, so
a caller-supplied title (even one set in kwargs) is never shown. -/
theorem forced_plot_titles (FDRstr t : String) (kws : List (String × String)) :
    postTitle (volcanoKwargs FDRstr kws) = some ("Volcano Plot  FDR=" ++ FDRstr) ∧
      postTitle (maKwargs FDRstr kws) = some ("MA Plot  FDR=" ++ FDRstr) ∧
      postTitle (volcanoKwargs FDRstr (dictSet "title" t kws)) =
        some ("Volcano Plot  FDR=" ++ FDRstr) ∧
      postTitle (maKwargs FDRstr (dictSet "title" t kws)) =
        some ("MA Plot  FDR=" ++ FDRstr) :=
  ⟨rfl, rfl, rfl, rfl⟩

end PyBioPlot
